import Mathlib

/-!
Shallow embedding of the core of `omniscient`, a shell-command history
tracker: the persistent command store (src/storage.rs), the capture
pipeline (src/capture.rs), the redaction engine boundary (src/redact.rs),
and the export/import engine (src/export.rs).

Modelling conventions:
* Rust `String`/`&str` is Lean `String`; byte-wise SQL `=` comparison is
  Lean `String` equality.
* `chrono::DateTime<Utc>` timestamps are `Nat` (RFC 3339 strings of a
  fixed format compare lexicographically exactly as instants compare, so
  a totally ordered `Nat` is a faithful model of both the stored string
  and the SQL `ORDER BY` over it).
* Machine integers (`i32`, `i64`) are `Int`; the arithmetic performed on
  them here (usage counters, exit codes, durations) never approaches the
  width bounds in any statement below, so no wrap-around modelling is
  needed.
* The SQLite table is a `Store`: the row list in rowid (insertion) order
  plus the next rowid. SQL statements are modelled by their documented
  SQLite semantics (filters, stable index-scan ordering, `LIKE`, FTS5
  phrase matching over the unicode61 tokenizer restricted to ASCII).
* `Result<T>` becomes `Except OmniscientError T`. Failure sources that
  are purely environmental (I/O, a broken database handle) have no
  behavioural branch in the source and thus none in the model; error
  branches that the source code itself contains (version validation,
  `Option::unwrap` panics) are modelled explicitly.
-/

/-- Error taxonomy of src/error.rs (`OmniscientError`). Variants carry their
message payloads; foreign payload types are modelled as strings. Note that
the enum has no `NotFound` variant. -/
inductive OmniscientError where
  | Storage (msg : String)
  | Io (msg : String)
  | Config (msg : String)
  | Serialization (msg : String)
  | TomlParsing (msg : String)
  | Redaction (msg : String)
  | DatabaseInit (msg : String)
  | Capture (msg : String)
  | ExportImport (msg : String)
  | Shell (msg : String)
  | InvalidPath (path : String)
  | NoHomeDir
  | Other (msg : String)
deriving Repr, DecidableEq

instance {ε α : Type} [DecidableEq ε] [DecidableEq α] : DecidableEq (Except ε α) := fun a b =>
  match a, b with
  | .error e, .error f =>
    if h : e = f then .isTrue (congrArg Except.error h)
    else .isFalse fun hh => h (Except.error.inj hh)
  | .ok x, .ok y =>
    if h : x = y then .isTrue (congrArg Except.ok h)
    else .isFalse fun hh => h (Except.ok.inj hh)
  | .error _, .ok _ => .isFalse fun hh => Except.noConfusion hh
  | .ok _, .error _ => .isFalse fun hh => Except.noConfusion hh

/-- One command execution record, from src/models.rs (`CommandRecord`). -/
structure CommandRecord where
  id : Option Int
  command : String
  timestamp : Nat
  exit_code : Int
  duration_ms : Int
  working_dir : String
  category : String
  usage_count : Int
  last_used : Nat
deriving Repr, DecidableEq

/-- `CommandRecord::new` (src/models.rs): usage_count starts at 1 and
last_used coincides with the creation timestamp. -/
def CommandRecord.new (command : String) (timestamp : Nat) (exit_code : Int)
    (duration_ms : Int) (working_dir : String) (category : String) : CommandRecord :=
  { id := none, command := command, timestamp := timestamp, exit_code := exit_code,
    duration_ms := duration_ms, working_dir := working_dir, category := category,
    usage_count := 1, last_used := timestamp }

/-- The `commands` table of src/storage.rs: rows in rowid order plus the next
AUTOINCREMENT rowid. -/
structure Store where
  rows : List CommandRecord
  nextId : Int
deriving Repr, DecidableEq

/-- A freshly initialised database (rowids start at 1). -/
def Store.empty : Store := { rows := [], nextId := 1 }

/-- Ordering modes of `SearchQuery` (src/models.rs `OrderBy`). -/
inductive OrderBy where
  | Timestamp
  | UsageCount
  | Relevance
deriving Repr, DecidableEq

/-- Search parameters, with the fields `Storage::search` consumes
(src/storage.rs lines 196-360: text, category, success_only, working_dir,
recursive, limit, order_by). -/
structure SearchQuery where
  text : Option String
  category : Option String
  success_only : Option Bool
  working_dir : Option String
  recursive : Bool
  limit : Nat
  order_by : OrderBy
deriving Repr, DecidableEq

/-- Lower-case an ASCII letter, the case folding SQLite applies in `LIKE`
and in the unicode61 tokenizer (ASCII fragment). -/
def lowerAscii (c : Char) : Char :=
  if 'A' ≤ c ∧ c ≤ 'Z' then Char.ofNat (c.toNat + 32) else c

/-- SQLite `LIKE` pattern matching: `%` matches any character sequence
(realised as: some suffix of the subject matches the rest of the pattern),
`_` matches any single character, and letters compare
ASCII-case-insensitively. Models the engine evaluating `x LIKE pattern`
for the patterns the store builds. -/
def likeMatch : List Char → List Char → Bool
  | [], s => s.isEmpty
  | '%' :: ps, s => (List.tails s).any fun t => likeMatch ps t
  | '_' :: ps, s =>
    match s with
    | [] => false
    | _ :: cs => likeMatch ps cs
  | p1 :: ps, s =>
    match s with
    | [] => false
    | c :: cs => (lowerAscii p1 == lowerAscii c) && likeMatch ps cs

/-- The row predicate realised by `command LIKE '%text%'` in the fallback
path (src/storage.rs line 204). -/
def likeContains (text : String) (command : String) : Bool :=
  likeMatch ('%' :: (text.data ++ ['%'])) command.data

/-- FTS5 unicode61 tokenizer, ASCII model: maximal runs of alphanumeric
characters, lower-cased. (`10.104.113.39` tokenizes to `10 104 113 39`.) -/
def ftsTokens (l : List Char) : List (List Char) :=
  go l []
where
  go : List Char → List Char → List (List Char)
  | [], acc => if acc.isEmpty then [] else [acc.reverse]
  | c :: cs, acc =>
    if c.isAlphanum then go cs (lowerAscii c :: acc)
    else if acc.isEmpty then go cs [] else acc.reverse :: go cs []

/-- Consecutive-subsequence test on token lists: FTS5 matches a quoted
phrase when its tokens occur consecutively among the row's tokens. -/
def phraseHit (xs : List (List Char)) : List (List Char) → Bool
  | [] => xs.isEmpty
  | y :: tl => List.isPrefixOf xs (y :: tl) || phraseHit xs tl

/-- Model of the FTS5 query lexer for an input that should be one quoted
string: after the opening `"`, a doubled `""` stands for a literal quote
and a single `"` must close the string at the end of the input. Returns
the phrase text, or `none` on a syntax error. -/
def ftsStringBody : List Char → Option (List Char)
  | [] => none
  | c :: cs =>
    if c = '"' then
      match cs with
      | [] => some []
      | c2 :: cs2 => if c2 = '"' then (ftsStringBody cs2).map (fun r => '"' :: r) else none
    else (ftsStringBody cs).map (fun r => c :: r)

/-- Parse a whole FTS5 query consisting of a single quoted phrase. -/
def ftsParseQuery : List Char → Option (List Char)
  | [] => none
  | c :: cs => if c = '"' then ftsStringBody cs else none

/-- Double every `"` in a character list: the effect of Rust
`str::replace` with the single-character needle `"` and replacement `""`. -/
def doubleQuotes : List Char → List Char
  | [] => []
  | c :: cs => if c = '"' then '"' :: '"' :: doubleQuotes cs else c :: doubleQuotes cs

/-- `Storage::sanitize_fts5_query` (src/storage.rs lines 176-183): escape
embedded double quotes by doubling them, then wrap the whole query in
double quotes so FTS5 treats it as one literal phrase. -/
def Storage.sanitize_fts5_query (query : String) : String :=
  let escaped := String.mk (doubleQuotes query.data)
  "\"" ++ escaped ++ "\""

/-- The row predicate realised by
`id IN (SELECT rowid FROM commands_fts WHERE command MATCH sanitized)`
(src/storage.rs lines 302-307): the sanitized query is lexed back to a
phrase, whose tokens must occur consecutively among the command's tokens. -/
def ftsTextMatch (text : String) (command : String) : Bool :=
  match ftsParseQuery (Storage.sanitize_fts5_query text).data with
  | some phrase => phraseHit (ftsTokens phrase) (ftsTokens command.data)
  | none => false

/-- `Storage::insert` (src/storage.rs lines 86-109): append a row (the
incoming record's `id` is ignored; the database assigns the next rowid)
and return `last_insert_rowid`. -/
def Storage.insert (s : Store) (cmd : CommandRecord) : Int × Store :=
  (s.nextId,
   { rows := s.rows ++ [{ cmd with id := some s.nextId }], nextId := s.nextId + 1 })

/-- `Storage::find_duplicate` (src/storage.rs lines 112-142):
`WHERE command = ?1 AND working_dir = ?2 LIMIT 1`, scanning in rowid
order; absence is `none`, never an error. -/
def Storage.find_duplicate (s : Store) (command : String) (working_dir : String) :
    Option CommandRecord :=
  s.rows.find? fun r => r.command == command && r.working_dir == working_dir

/-- `Storage::increment_usage` (src/storage.rs lines 144-154): a single
`UPDATE commands SET usage_count = usage_count + 1, last_used = now WHERE
id = ?`. An UPDATE matching zero rows is a successful statement, so the
function returns `Ok(())` whether or not the id exists; the only failure
source is an engine-level error, which has no behavioural branch here. -/
def Storage.increment_usage (s : Store) (id : Int) (now : Nat) :
    Except OmniscientError Store :=
  .ok { s with
        rows := s.rows.map fun r =>
          if r.id = some id then
            { r with usage_count := r.usage_count + 1, last_used := now }
          else r }

/-- Sort relation for `ORDER BY timestamp ASC` (export dump). -/
def tsAsc (a b : CommandRecord) : Prop := a.timestamp ≤ b.timestamp

instance : DecidableRel tsAsc := fun a b => Nat.decLe a.timestamp b.timestamp

instance : IsTotal CommandRecord tsAsc := ⟨fun a b => Nat.le_total a.timestamp b.timestamp⟩

instance : IsTrans CommandRecord tsAsc := ⟨fun _ _ _ h1 h2 => Nat.le_trans h1 h2⟩

/-- Sort relation for `ORDER BY timestamp DESC`. -/
def tsDesc (a b : CommandRecord) : Prop := b.timestamp ≤ a.timestamp

instance : DecidableRel tsDesc := fun a b => Nat.decLe b.timestamp a.timestamp

/-- Sort relation for `ORDER BY usage_count DESC, timestamp DESC`. -/
def usageDesc (a b : CommandRecord) : Prop :=
  b.usage_count < a.usage_count ∨ (b.usage_count = a.usage_count ∧ b.timestamp ≤ a.timestamp)

instance : DecidableRel usageDesc := fun _ _ => by unfold usageDesc; infer_instance

/-- The ORDER BY clause both search paths append verbatim
(src/storage.rs lines 233-238 and 310-317): `ByTimestamp` sorts by
timestamp descending; `ByUsageCount` and `ByRelevance` sort by usage_count
descending with timestamp descending as tie-break. SQLite's index scan is
rowid-stable, modelled by a stable sort. -/
def orderRows (o : OrderBy) (l : List CommandRecord) : List CommandRecord :=
  match o with
  | .Timestamp => List.insertionSort tsDesc l
  | .UsageCount | .Relevance => List.insertionSort usageDesc l

/-- The non-text WHERE conjuncts, appended in the same order and with the
same SQL fragments by both `Storage::search` and
`Storage::search_with_like`: category equality, success as
`exit_code = 0` / `exit_code != 0`, and the working-directory filter
(`LIKE 'dir%'` when recursive, else equality). -/
def baseFilter (q : SearchQuery) (r : CommandRecord) : Bool :=
  (match q.category with
   | some cat => r.category == cat
   | none => true)
  && (match q.success_only with
      | some true => r.exit_code == 0
      | some false => r.exit_code != 0
      | none => true)
  && (match q.working_dir with
      | some dir =>
        if q.recursive then likeMatch (dir.data ++ ['%']) r.working_dir.data
        else r.working_dir == dir
      | none => true)

/-- `Storage::search_with_like` (src/storage.rs lines 196-262): the
fallback path. `WHERE command LIKE '%text%'` plus the same category /
success / working-directory conjuncts, the same ORDER BY, the same LIMIT. -/
def Storage.search_with_like (s : Store) (q : SearchQuery) (text : String) :
    List CommandRecord :=
  let matched := s.rows.filter fun r => likeContains text r.command && baseFilter q r
  (orderRows q.order_by matched).take q.limit

/-- `Storage::search` (src/storage.rs lines 265-360) with the FTS index
available: filters, then — when a text phrase is present — the FTS5
`MATCH` membership test on the sanitized phrase; ordering and limit as
above. If the sanitized query were rejected by the FTS5 lexer, the source
catches the statement error and falls back to `search_with_like`. -/
def Storage.search (s : Store) (q : SearchQuery) : List CommandRecord :=
  match q.text with
  | some t =>
    if (ftsParseQuery (Storage.sanitize_fts5_query t).data).isSome then
      let matched := s.rows.filter fun r => baseFilter q r && ftsTextMatch t r.command
      (orderRows q.order_by matched).take q.limit
    else Storage.search_with_like s q t
  | none =>
    (orderRows q.order_by (s.rows.filter fun r => baseFilter q r)).take q.limit

/-- `Storage::search` when the FTS index cannot be used (virtual table
missing or corrupted, so preparing or running the statement fails): with a
text phrase present the source falls back to `search_with_like`
(src/storage.rs lines 343-356); without one the statement never references
the FTS table, so the ordinary path runs. -/
def Storage.search_index_broken (s : Store) (q : SearchQuery) : List CommandRecord :=
  match q.text with
  | some t => Storage.search_with_like s q t
  | none => Storage.search s q

/-- `Storage::get_all` (src/storage.rs lines 486-511): full dump,
`ORDER BY timestamp ASC` (rowid-stable on ties). -/
def Storage.get_all (s : Store) : List CommandRecord :=
  List.insertionSort tsAsc s.rows

/-- Redaction engine boundary (src/redact.rs). The compiled
case-insensitive pattern list is an external collaborator (spec scope);
its aggregate any-pattern-matches test over a command is the function
`is_match`. -/
structure RedactionEngine where
  is_match : String → Bool
  enabled : Bool

/-- `RedactionEngine::should_redact` (src/redact.rs lines 31-39): false
whenever the engine is disabled, otherwise whether any pattern matches. -/
def RedactionEngine.should_redact (e : RedactionEngine) (command : String) : Bool :=
  if !e.enabled then false else e.is_match command

/-- `RedactionEngine::redact` (src/redact.rs lines 42-48): replace the
whole command by the placeholder when it should be redacted. -/
def RedactionEngine.redact (e : RedactionEngine) (command : String) : String :=
  if e.should_redact command then "[REDACTED]" else command

/-- The capture-relevant configuration (src/config.rs): the minimum
duration threshold consulted by the capture pipeline. -/
structure CaptureConfig where
  min_duration_ms : Int

/-- Configuration wrapper mirroring `config.capture.min_duration_ms`. -/
structure Config where
  capture : CaptureConfig

/-- Rust `str::trim` on the ASCII fragment: drop leading and trailing
whitespace. (Lean's own `String.trim` is built on `Substring` primitives
that the kernel cannot evaluate, so the transcription works on the
character list directly.) -/
def strTrim (s : String) : String :=
  String.mk (((s.data.dropWhile Char.isWhitespace).reverse.dropWhile Char.isWhitespace).reverse)

/-- `CommandCapture::capture` (src/capture.rs lines 41-92). The
categorizer (src/category.rs) and the working-directory resolution are the
external collaborators the pipeline consumes: `categorize` as a pure
function, `cwd` as the possibly-failed `env::current_dir` result for this
call (with the `/unknown` sentinel substituted on failure). `now` is the
clock value for this call. -/
def CommandCapture.capture (config : Config) (redactor : RedactionEngine)
    (categorize : String → String) (s : Store) (command : String)
    (exit_code : Int) (duration_ms : Int) (cwd : Option String) (now : Nat) :
    Except OmniscientError Store :=
  let command := strTrim command
  if command.data.isEmpty then .ok s
  else if duration_ms < config.capture.min_duration_ms then .ok s
  else
    let processed_command := redactor.redact command
    if processed_command = "[REDACTED]" then .ok s
    else
      let working_dir := cwd.getD "/unknown"
      let category := categorize processed_command
      match Storage.find_duplicate s processed_command working_dir with
      | some existing =>
        match existing.id with
        | some i => Storage.increment_usage s i now
        | none => .error (.Other "panicked: unwrap of a missing id")
      | none =>
        let record :=
          CommandRecord.new processed_command now exit_code duration_ms working_dir category
        .ok (Storage.insert s record).2

/-- Arguments of one `capture` invocation, including the per-call values of
the external collaborators (working directory, clock). -/
structure CaptureCall where
  command : String
  exit_code : Int
  duration_ms : Int
  cwd : Option String
  now : Nat

/-- Run a sequence of capture calls against a store, swallowing errors at
the capture boundary exactly as the shell hook caller does (spec and
src/main.rs: a failed capture is logged and the store kept as it was). -/
def applyCaptures (config : Config) (redactor : RedactionEngine)
    (categorize : String → String) : List CaptureCall → Store → Store
  | [], s => s
  | c :: cs, s =>
    applyCaptures config redactor categorize cs
      (match CommandCapture.capture config redactor categorize s
          c.command c.exit_code c.duration_ms c.cwd c.now with
       | .ok s' => s'
       | .error _ => s)

/-- The uniqueness key of a record: the (command, working_dir) pair. -/
def keyOf (r : CommandRecord) : String × String := (r.command, r.working_dir)

/-- The store invariant of the spec's data model: no two rows share a
(command, working_dir) key. -/
def UniqueKeys (s : Store) : Prop := (s.rows.map keyOf).Nodup

/-- Record equality in every field except the surrogate id. -/
def sameData (a b : CommandRecord) : Prop :=
  a.command = b.command ∧ a.timestamp = b.timestamp ∧ a.exit_code = b.exit_code ∧
  a.duration_ms = b.duration_ms ∧ a.working_dir = b.working_dir ∧
  a.category = b.category ∧ a.usage_count = b.usage_count ∧ a.last_used = b.last_used

instance : ∀ a b, Decidable (sameData a b) := fun _ _ => by unfold sameData; infer_instance

/-- The snapshot document (src/export.rs `ExportData`): version tag, export
timestamp, record count, and the record list. -/
structure ExportData where
  version : String
  exported_at : Nat
  command_count : Nat
  commands : List CommandRecord
deriving Repr, DecidableEq

/-- `Exporter::export` (src/export.rs lines 40-61): dump all records in
timestamp order and wrap them with version "1.0", the export timestamp and
the record count. (File serialisation is the identity on this data.) -/
def Exporter.export (s : Store) (now : Nat) : ExportData :=
  let commands := Storage.get_all s
  { version := "1.0", exported_at := now, command_count := commands.length,
    commands := commands }

/-- Merge policy for import reconciliation (src/export.rs
`ImportStrategy`; `PreserveHigher` is the default). -/
inductive ImportStrategy where
  | Skip
  | UpdateUsage
  | PreserveHigher
deriving Repr, DecidableEq

/-- Counters returned by an import run (src/export.rs `ImportStats`). -/
structure ImportStats where
  total_commands : Nat
  imported : Nat
  skipped : Nat
  updated : Nat
deriving Repr, DecidableEq

/-- `Importer::update_usage_count` (src/export.rs lines 157-164). The
source receives the merged count but deliberately ignores it (`_new_count`)
and merely calls `increment_usage` once, per its own TODO comment. -/
def Importer.update_usage_count (s : Store) (id : Int) (_new_count : Int) (now : Nat) :
    Except OmniscientError Store :=
  Storage.increment_usage s id now

/-- The per-record reconciliation loop of `Importer::import`
(src/export.rs lines 117-152): look up a duplicate by key; insert fresh
records, and resolve duplicates per strategy. -/
def Importer.importLoop (strategy : ImportStrategy) (now : Nat) :
    List CommandRecord → Store → ImportStats →
    Except OmniscientError (Store × ImportStats)
  | [], s, stats => .ok (s, stats)
  | cmd :: rest, s, stats =>
    match Storage.find_duplicate s cmd.command cmd.working_dir with
    | some existing =>
      match strategy with
      | .Skip =>
        Importer.importLoop strategy now rest s { stats with skipped := stats.skipped + 1 }
      | .UpdateUsage =>
        let new_count := existing.usage_count + cmd.usage_count
        match existing.id with
        | some i => do
          let s' ← Importer.update_usage_count s i new_count now
          Importer.importLoop strategy now rest s' { stats with updated := stats.updated + 1 }
        | none => .error (.Other "panicked: unwrap of a missing id")
      | .PreserveHigher =>
        if existing.usage_count < cmd.usage_count then
          match existing.id with
          | some i => do
            let s' ← Importer.update_usage_count s i cmd.usage_count now
            Importer.importLoop strategy now rest s' { stats with updated := stats.updated + 1 }
          | none => .error (.Other "panicked: unwrap of a missing id")
        else
          Importer.importLoop strategy now rest s { stats with skipped := stats.skipped + 1 }
    | none =>
      Importer.importLoop strategy now rest (Storage.insert s cmd).2
        { stats with imported := stats.imported + 1 }

/-- `Importer::import` (src/export.rs lines 98-155): parse the snapshot,
reject an empty version tag, seed the stats with the snapshot's
`command_count` field, then reconcile record by record. -/
def Importer.import' (strategy : ImportStrategy) (s : Store) (data : ExportData)
    (now : Nat) : Except OmniscientError (Store × ImportStats) :=
  if data.version.isEmpty then
    .error (.Config "Invalid export file: missing version")
  else
    Importer.importLoop strategy now data.commands s
      { total_commands := data.command_count, imported := 0, skipped := 0, updated := 0 }

/-- Stores whose rows all carry a database-assigned id — true of every
store reachable through `Storage.insert`, and what `Option::unwrap` on
`existing.id` silently assumes. -/
def IdsAssigned (s : Store) : Prop := ∀ r ∈ s.rows, r.id.isSome

/-- Rowid assignment performed by a run of consecutive inserts starting at
the given next rowid. -/
def assignIds : Int → List CommandRecord → List CommandRecord
  | _, [] => []
  | n, c :: cs => { c with id := some n } :: assignIds (n + 1) cs

/-- Fixture: a stored record for ("git status", "/tmp") with usage_count 5. -/
def rec5 : CommandRecord :=
  { id := some 1, command := "git status", timestamp := 100, exit_code := 0,
    duration_ms := 50, working_dir := "/tmp", category := "git",
    usage_count := 5, last_used := 100 }

/-- Fixture: a store holding exactly `rec5`. -/
def s5 : Store := { rows := [rec5], nextId := 2 }

/-- Fixture: a snapshot carrying the same key as `rec5` with usage_count 10. -/
def data10 : ExportData :=
  { version := "1.0", exported_at := 200, command_count := 1,
    commands := [{ rec5 with usage_count := 10 }] }

/-- Fixture: a snapshot carrying the same key as `rec5` with usage_count 3. -/
def data3 : ExportData :=
  { version := "1.0", exported_at := 200, command_count := 1,
    commands := [{ rec5 with usage_count := 3 }] }

/-- Fixture: a parseable, version-valid snapshot whose `command_count` field
(1) disagrees with its empty record list. -/
def dataMismatch : ExportData :=
  { version := "1.0", exported_at := 0, command_count := 1, commands := [] }

/-- Fixture: a stored record whose command is "git status". -/
def rGit : CommandRecord :=
  { id := some 1, command := "git status", timestamp := 5, exit_code := 0,
    duration_ms := 10, working_dir := "/tmp", category := "git",
    usage_count := 1, last_used := 5 }

/-- Fixture: a store holding exactly `rGit`. -/
def sGit : Store := { rows := [rGit], nextId := 2 }

/-- Fixture: a free-text query for "stat", a strict substring of the token
"status". -/
def qStat : SearchQuery :=
  { text := some "stat", category := none, success_only := none,
    working_dir := none, recursive := false, limit := 10, order_by := .Timestamp }

/-- Fixture: a free-text query for the whole token "status". -/
def qStatus : SearchQuery :=
  { text := some "status", category := none, success_only := none,
    working_dir := none, recursive := false, limit := 10, order_by := .Timestamp }

/-- Fixture: configuration with a zero minimum-duration threshold. -/
def config0 : Config := { capture := { min_duration_ms := 0 } }

/-- Fixture: a categorizer constantly answering the default label. -/
def cat0 : String → String := fun _ => "other"

/-- Fixture: an enabled redaction engine whose pattern list matches exactly
the command "deploy alpha". -/
def red8 : RedactionEngine := { is_match := fun c => c == "deploy alpha", enabled := true }

/-- Fixture: an enabled redaction engine whose pattern list matches nothing. -/
def redNever : RedactionEngine := { is_match := fun _ => false, enabled := true }

/-- Fixture: a store already holding a record for "deploy alpha" (captured,
say, before the matching pattern was configured). -/
def s8 : Store :=
  { rows := [{ id := some 1, command := "deploy alpha", timestamp := 10, exit_code := 0,
               duration_ms := 500, working_dir := "/tmp", category := "other",
               usage_count := 1, last_used := 10 }], nextId := 2 }

/-- Fixture: a two-record source store with distinct keys. -/
def sSrc : Store :=
  { rows := [{ id := some 1, command := "git status", timestamp := 1, exit_code := 0,
               duration_ms := 50, working_dir := "/tmp", category := "git",
               usage_count := 5, last_used := 9 },
             { id := some 2, command := "docker ps", timestamp := 2, exit_code := 1,
               duration_ms := 70, working_dir := "/home", category := "docker",
               usage_count := 3, last_used := 8 }], nextId := 3 }

/-- A quote-doubled body followed by a closing quote lexes back to the
original text. -/
theorem ftsStringBody_doubleQuotes (l : List Char) :
    ftsStringBody (doubleQuotes l ++ ['"']) = some l := by
  induction l with
  | nil => rfl
  | cons c cs ih =>
    by_cases h : c = '"'
    · subst h
      simp [doubleQuotes, ftsStringBody, ih]
    · simp only [doubleQuotes, if_neg h, List.cons_append]
      rw [ftsStringBody.eq_def]
      simp [h, ih]

/-- Sanitizing any phrase yields a query the FTS5 lexer accepts, and it
decodes to exactly the original phrase. -/
theorem ftsParseQuery_sanitize (p : String) :
    ftsParseQuery (Storage.sanitize_fts5_query p).data = some p.data := by
  have h : (Storage.sanitize_fts5_query p).data = '"' :: (doubleQuotes p.data ++ ['"']) := by
    show (("\"" ++ String.mk (doubleQuotes p.data)) ++ "\"").data = _
    rw [String.data_append, String.data_append]
    rfl
  rw [h]
  simp [ftsParseQuery, ftsStringBody_doubleQuotes]

/-- C6: for every phrase p, the string handed to the FTS index is p with
every embedded double quote doubled, wrapped in double quotes; the FTS5
lexer therefore always accepts it and reads back exactly p as one literal
phrase (never a syntax error), and the cited phrases match as plain
substrings of the stored commands. -/
theorem c6_sanitize_literal_phrase :
    (∀ p : String, ftsParseQuery (Storage.sanitize_fts5_query p).data = some p.data)
    ∧ ftsTextMatch "10.104.113.39" "ssh user@10.104.113.39" = true
    ∧ ftsTextMatch "https://api.github.com" "curl https://api.github.com/x" = true
    ∧ ftsTextMatch "*.txt" "ls *.txt" = true
    ∧ (ftsParseQuery (Storage.sanitize_fts5_query "grep \"pattern\"").data).isSome = true :=
  ⟨ftsParseQuery_sanitize, by decide, by decide, by decide, by decide⟩

/-- C1 (observed behaviour at the spec's scenario): with an existing record
at usage_count 5 and an incoming record for the same key at usage_count 10,
PreserveHigher counts updated=1 and skipped=0 as claimed, but the stored
count becomes 6 — `update_usage_count` ignores the incoming count and
increments once — not 10; with incoming usage_count 3 the record is
untouched and skipped=1 as claimed. -/
theorem c1_preserve_higher_observed :
    Importer.import' .PreserveHigher s5 data10 300 =
      .ok ({ rows := [{ rec5 with usage_count := 6, last_used := 300 }], nextId := 2 },
           { total_commands := 1, imported := 0, skipped := 0, updated := 1 })
    ∧ Importer.import' .PreserveHigher s5 data3 300 =
      .ok (s5, { total_commands := 1, imported := 0, skipped := 1, updated := 0 }) :=
  ⟨by decide, by decide⟩

/-- C2 (observed behaviour): with an existing record at usage_count 5 and an
incoming duplicate at usage_count 10, UpdateUsage refreshes last_used and
counts updated=1, but stores usage_count 6 — one increment — instead of the
documented sum 15. -/
theorem c2_update_usage_observed :
    Importer.import' .UpdateUsage s5 data10 300 =
      .ok ({ rows := [{ rec5 with usage_count := 6, last_used := 300 }], nextId := 2 },
           { total_commands := 1, imported := 0, skipped := 0, updated := 1 })
    ∧ (6 : Int) ≠ 5 + 10 :=
  ⟨by decide, by decide⟩

/-- C3 counterexample: a parseable snapshot with a non-empty version whose
`command_count` field (1) disagrees with its empty record list imports
successfully, yet the returned stats violate
imported + skipped + updated = total_commands (0 ≠ 1), because
total_commands is copied from the snapshot field. -/
theorem c3_total_mismatch_cex :
    Importer.import' .Skip Store.empty dataMismatch 0 =
      .ok (Store.empty, { total_commands := 1, imported := 0, skipped := 0, updated := 0 })
    ∧ (0 + 0 + 0 : Nat) ≠ 1 :=
  ⟨by decide, by decide⟩

/-- C4 counterexample: incrementing a nonexistent id (the store is empty)
returns success with the store unchanged — it does not fail with any error,
and the error enum has no NotFound variant to fail with. -/
theorem c4_missing_id_ok_cex :
    Storage.increment_usage Store.empty 1 0 = .ok Store.empty := by decide

/-- C5 counterexample: for the phrase "stat" against a store containing
"git status" (no other filters), the indexed path returns no rows — "stat"
is not a whole token — while the broken-index fallback's substring test
returns the record, so the two result sets differ. -/
theorem c5_fallback_differs_cex :
    Storage.search sGit qStat = [] ∧ Storage.search_index_broken sGit qStat = [rGit] :=
  ⟨by decide, by decide⟩

/-- C8 counterexample: the command "deploy alpha" matches the enabled
redaction pattern and capture returns success leaving the store unchanged,
but a record for that command (inserted earlier) still exists afterward —
the prior state is not expunged. -/
theorem c8_prior_record_cex :
    CommandCapture.capture config0 red8 cat0 s8 "deploy alpha" 0 500 (some "/tmp") 20 = .ok s8
    ∧ red8.should_redact "deploy alpha" = true
    ∧ s8.rows.any (fun r => r.command == "deploy alpha") = true :=
  ⟨by decide, by decide, by decide⟩

/-- C4 (amended): incrementUsage always succeeds; when the id is absent the
UPDATE matches no row and the store is unchanged (no NotFound error — the
error enum has no such variant), and when present the matching row gets
usage_count + 1 and last_used = now with every other row and field
untouched. -/
theorem c4_increment_usage_amended (s : Store) (id : Int) (now : Nat) :
    ∃ s', Storage.increment_usage s id now = .ok s'
      ∧ s'.rows = s.rows.map (fun r =>
          if r.id = some id then { r with usage_count := r.usage_count + 1, last_used := now }
          else r)
      ∧ ((∀ r ∈ s.rows, r.id ≠ some id) → s' = s) := by
  refine ⟨_, rfl, rfl, fun h => ?_⟩
  have hrows : ∀ l : List CommandRecord, (∀ r ∈ l, r.id ≠ some id) →
      l.map (fun r =>
        if r.id = some id then { r with usage_count := r.usage_count + 1, last_used := now }
        else r) = l := by
    intro l hl
    induction l with
    | nil => rfl
    | cons a t ih =>
      simp only [List.map_cons]
      rw [if_neg (hl a (by simp)), ih (fun r hr => hl r (by simp [hr]))]
  show { s with rows := _ } = s
  rw [hrows s.rows h]

/-- C8 (amended): a capture whose command trims to the empty string, or
whose duration is below the configured minimum, or which the enabled
redaction collaborator reports as matching, returns success and leaves the
store entirely unchanged — so no record is created, and a record for that
command exists afterward only if it already existed before (capture never
deletes). -/
theorem c8_skip_conditions_noop (config : Config) (red : RedactionEngine)
    (categorize : String → String) (s : Store) (command : String)
    (exit_code duration_ms : Int) (cwd : Option String) (now : Nat)
    (h : (strTrim command).data.isEmpty = true
       ∨ duration_ms < config.capture.min_duration_ms
       ∨ red.should_redact (strTrim command) = true) :
    CommandCapture.capture config red categorize s command
      exit_code duration_ms cwd now = .ok s := by
  unfold CommandCapture.capture
  by_cases he : (strTrim command).data.isEmpty
  · simp [he]
  · by_cases hd : duration_ms < config.capture.min_duration_ms
    · simp [he, hd]
    · rcases h with h | h | h
      · exact absurd h he
      · exact absurd h hd
      · simp [he, hd, RedactionEngine.redact, h]

/-- Witness for the amended C8 at a concrete skip condition: a
whitespace-only command against a populated store. -/
theorem c8_skip_conditions_noop_witness :
    ((strTrim "   ").data.isEmpty = true
       ∨ (100 : Int) < config0.capture.min_duration_ms
       ∨ red8.should_redact (strTrim "   ") = true)
    ∧ CommandCapture.capture config0 red8 cat0 s8 "   " 0 100 (some "/tmp") 20 = .ok s8 :=
  ⟨Or.inl (by decide),
   c8_skip_conditions_noop config0 red8 cat0 s8 "   " 0 100 (some "/tmp") 20
     (Or.inl (by decide))⟩

/-- C10: capturing any command whose trimmed text is the literal
"[REDACTED]" is a store-preserving no-op returning success, for every
configuration and redaction engine — even one whose pattern list matches
nothing — because capture tests the post-redaction text against the
placeholder string instead of consulting should_redact. -/
theorem c10_redacted_literal_noop (config : Config) (red : RedactionEngine)
    (categorize : String → String) (s : Store) (command : String)
    (exit_code duration_ms : Int) (cwd : Option String) (now : Nat)
    (h : strTrim command = "[REDACTED]") :
    CommandCapture.capture config red categorize s command
      exit_code duration_ms cwd now = .ok s := by
  unfold CommandCapture.capture
  rw [h]
  by_cases hd : duration_ms < config.capture.min_duration_ms
  · simp [hd]
  · by_cases hr : red.should_redact "[REDACTED]" <;>
      simp [hd, hr, RedactionEngine.redact]

/-- Witness for C10: the command " [REDACTED] " against a populated store,
with an enabled engine matching no pattern at all. -/
theorem c10_redacted_literal_noop_witness :
    strTrim " [REDACTED] " = "[REDACTED]"
    ∧ redNever.should_redact "[REDACTED]" = false
    ∧ CommandCapture.capture config0 redNever cat0 s8 " [REDACTED] "
        0 999 (some "/tmp") 20 = .ok s8 :=
  ⟨by decide, by decide,
   c10_redacted_literal_noop config0 redNever cat0 s8 " [REDACTED] "
     0 999 (some "/tmp") 20 (by decide)⟩

/-- C5 (amended): when a text phrase is present, the broken-index fallback
runs the identical category / success / working-directory / ordering /
limit logic and differs only in the text predicate (LIKE substring
containment instead of FTS phrase membership); consequently, whenever the
two text predicates agree on every stored command the fallback returns
exactly the indexed result — but not in general, as the counterexample
shows. -/
theorem c5_fallback_equivalence (s : Store) (q : SearchQuery) (t : String)
    (ht : q.text = some t)
    (hagree : ∀ r ∈ s.rows, ftsTextMatch t r.command = likeContains t r.command) :
    Storage.search_index_broken s q = Storage.search s q := by
  have hp : ftsParseQuery (Storage.sanitize_fts5_query t).data = some t.data :=
    ftsParseQuery_sanitize t
  unfold Storage.search_index_broken Storage.search
  rw [ht]
  simp only [hp, Option.isSome_some, if_true]
  unfold Storage.search_with_like
  have hfilter :
      s.rows.filter (fun r => likeContains t r.command && baseFilter q r)
        = s.rows.filter (fun r => baseFilter q r && ftsTextMatch t r.command) := by
    apply List.filter_congr
    intro r hr
    rw [hagree r hr, Bool.and_comm]
  rw [hfilter]

/-- Witness for the amended C5: for the whole-token phrase "status" the two
text predicates agree on the stored command, and indeed the broken-index
search result equals the indexed one. -/
theorem c5_fallback_equivalence_witness :
    qStatus.text = some "status"
    ∧ (∀ r ∈ sGit.rows, ftsTextMatch "status" r.command = likeContains "status" r.command)
    ∧ Storage.search_index_broken sGit qStatus = Storage.search sGit qStatus :=
  ⟨rfl, by decide, c5_fallback_equivalence sGit qStatus "status" rfl (by decide)⟩

/-- A negative duplicate lookup means no stored row carries the key. -/
theorem find_duplicate_none_key (s : Store) (c w : String)
    (h : Storage.find_duplicate s c w = none) :
    ∀ r ∈ s.rows, keyOf r ≠ (c, w) := by
  intro r hr hkey
  unfold Storage.find_duplicate at h
  have hne := List.find?_eq_none.mp h r hr
  simp only [Bool.and_eq_true, beq_iff_eq] at hne
  simp only [keyOf, Prod.mk.injEq] at hkey
  exact hne ⟨hkey.1, hkey.2⟩

/-- The usage-count increment touches only usage_count and last_used, so
the multiset of keys is untouched. -/
theorem keyOf_map_increment (l : List CommandRecord) (id : Int) (now : Nat) :
    (l.map fun r =>
        if r.id = some id then { r with usage_count := r.usage_count + 1, last_used := now }
        else r).map keyOf = l.map keyOf := by
  rw [List.map_map]
  apply List.map_congr_left
  intro r _
  by_cases h : r.id = some id <;> simp [keyOf, h]

/-- One capture call preserves the key-uniqueness invariant: its only
mutations are an increment of an existing row or an insert guarded by a
negative duplicate lookup. -/
theorem capture_preserves_UniqueKeys (config : Config) (red : RedactionEngine)
    (categorize : String → String) (s : Store) (command : String)
    (exit_code duration_ms : Int) (cwd : Option String) (now : Nat) (s' : Store)
    (h : UniqueKeys s)
    (hc : CommandCapture.capture config red categorize s command
            exit_code duration_ms cwd now = .ok s') :
    UniqueKeys s' := by
  unfold CommandCapture.capture at hc
  by_cases he : (strTrim command).data.isEmpty = true
  · simp [he] at hc
    exact hc ▸ h
  · by_cases hd : duration_ms < config.capture.min_duration_ms
    · simp [he, hd] at hc
      exact hc ▸ h
    · by_cases hre : red.redact (strTrim command) = "[REDACTED]"
      · simp [he, hd, hre] at hc
        exact hc ▸ h
      · simp only [he, hd, hre, if_false, if_neg, Bool.false_eq_true] at hc
        cases heq : Storage.find_duplicate s (red.redact (strTrim command))
            (cwd.getD "/unknown") with
        | some existing =>
          rw [heq] at hc
          dsimp only at hc
          cases hid : existing.id with
          | some i =>
            rw [hid] at hc
            unfold Storage.increment_usage at hc
            simp only [Except.ok.injEq] at hc
            subst hc
            unfold UniqueKeys
            rw [keyOf_map_increment]
            exact h
          | none =>
            rw [hid] at hc
            exact absurd hc (by simp)
        | none =>
          rw [heq] at hc
          dsimp only at hc
          simp only [Except.ok.injEq] at hc
          subst hc
          unfold UniqueKeys Storage.insert
          simp only [List.map_append, List.map_cons, List.map_nil]
          rw [List.nodup_append]
          refine ⟨h, List.nodup_singleton _, ?_⟩
          intro a ha hb
          simp only [List.mem_singleton] at hb
          subst hb
          obtain ⟨r, hr, hkr⟩ := List.mem_map.mp ha
          exact find_duplicate_none_key s _ _ heq r hr hkr

/-- Running any sequence of capture calls preserves key uniqueness. -/
theorem applyCaptures_preserves_UniqueKeys (config : Config) (red : RedactionEngine)
    (categorize : String → String) (calls : List CaptureCall) :
    ∀ s : Store, UniqueKeys s →
      UniqueKeys (applyCaptures config red categorize calls s) := by
  induction calls with
  | nil => intro s h; exact h
  | cons c cs ih =>
    intro s h
    unfold applyCaptures
    apply ih
    cases hc : CommandCapture.capture config red categorize s
        c.command c.exit_code c.duration_ms c.cwd c.now with
    | ok s' =>
      simp only [hc]
      exact capture_preserves_UniqueKeys config red categorize s
        c.command c.exit_code c.duration_ms c.cwd c.now s' h hc
    | error e =>
      simp only [hc]
      exact h

/-- C7: for every configuration, redaction engine, categorizer and
sequence of capture calls starting from the empty store, the resulting
store never holds two records with the same (command, working_dir) key —
capture looks the key up first and either increments the existing record
or inserts exactly one fresh record. -/
theorem c7_capture_uniqueness (config : Config) (red : RedactionEngine)
    (categorize : String → String) (calls : List CaptureCall) :
    UniqueKeys (applyCaptures config red categorize calls Store.empty) :=
  applyCaptures_preserves_UniqueKeys config red categorize calls Store.empty
    (by simp [UniqueKeys, Store.empty])

/-- Insertion assigns the fresh row a database id, so id-assignment is
preserved. -/
theorem IdsAssigned_insert (s : Store) (cmd : CommandRecord) (h : IdsAssigned s) :
    IdsAssigned (Storage.insert s cmd).2 := by
  intro r hr
  unfold Storage.insert at hr
  simp only [List.mem_append, List.mem_singleton] at hr
  rcases hr with hr | hr
  · exact h r hr
  · subst hr; rfl

/-- The increment UPDATE keeps every row's id, so id-assignment is
preserved. -/
theorem IdsAssigned_increment (s : Store) (id : Int) (now : Nat) (s' : Store)
    (hinc : Storage.increment_usage s id now = Except.ok s') (h : IdsAssigned s) :
    IdsAssigned s' := by
  unfold Storage.increment_usage at hinc
  simp only [Except.ok.injEq] at hinc
  subst hinc
  intro r hr
  simp only [List.mem_map] at hr
  obtain ⟨x, hx, hfx⟩ := hr
  subst hfx
  by_cases hxid : x.id = some id
  · simp [hxid]
  · simp only [if_neg hxid]
    exact h x hx

/-- Each reconciliation step succeeds and adds exactly one to exactly one
of imported / skipped / updated, leaving total_commands untouched. -/
theorem importLoop_counts (strategy : ImportStrategy) (now : Nat)
    (L : List CommandRecord) :
    ∀ (s : Store) (stats : ImportStats), IdsAssigned s →
      ∃ s' stats', Importer.importLoop strategy now L s stats = .ok (s', stats')
        ∧ stats'.imported + stats'.skipped + stats'.updated
            = stats.imported + stats.skipped + stats.updated + L.length
        ∧ stats'.total_commands = stats.total_commands := by
  induction L with
  | nil =>
    intro s stats _
    exact ⟨s, stats, rfl, by simp, rfl⟩
  | cons cmd rest ih =>
    intro s stats hwf
    simp only [Importer.importLoop]
    cases heq : Storage.find_duplicate s cmd.command cmd.working_dir with
    | none =>
      dsimp only
      obtain ⟨s', stats', h1, h2, h3⟩ :=
        ih (Storage.insert s cmd).2 { stats with imported := stats.imported + 1 }
          (IdsAssigned_insert s cmd hwf)
      refine ⟨s', stats', h1, ?_, h3⟩
      simp only at h2
      simp only [h2, List.length_cons]
      omega
    | some existing =>
      have hmem : existing ∈ s.rows := List.mem_of_find?_eq_some heq
      obtain ⟨i, hi⟩ := Option.isSome_iff_exists.mp (hwf existing hmem)
      cases strategy with
      | Skip =>
        dsimp only
        obtain ⟨s', stats', h1, h2, h3⟩ :=
          ih s { stats with skipped := stats.skipped + 1 } hwf
        refine ⟨s', stats', h1, ?_, h3⟩
        simp only at h2
        simp only [h2, List.length_cons]
        omega
      | UpdateUsage =>
        dsimp only
        rw [hi]
        obtain ⟨s', stats', h1, h2, h3⟩ :=
          ih _ { stats with updated := stats.updated + 1 }
            (IdsAssigned_increment s i now _ rfl hwf)
        refine ⟨s', stats', h1, ?_, h3⟩
        simp only at h2
        simp only [h2, List.length_cons]
        omega
      | PreserveHigher =>
        dsimp only
        by_cases hcmp : existing.usage_count < cmd.usage_count
        · rw [if_pos hcmp, hi]
          obtain ⟨s', stats', h1, h2, h3⟩ :=
            ih _ { stats with updated := stats.updated + 1 }
              (IdsAssigned_increment s i now _ rfl hwf)
          refine ⟨s', stats', h1, ?_, h3⟩
          simp only at h2
          simp only [h2, List.length_cons]
          omega
        · rw [if_neg hcmp]
          obtain ⟨s', stats', h1, h2, h3⟩ :=
            ih s { stats with skipped := stats.skipped + 1 } hwf
          refine ⟨s', stats', h1, ?_, h3⟩
          simp only at h2
          simp only [h2, List.length_cons]
          omega

/-- C3 (amended): every import run on a version-valid snapshot against a
store with database-assigned ids succeeds, its counters satisfy
imported + skipped + updated = number of records in the snapshot's list,
and total_commands is copied verbatim from the snapshot's command_count
field — so the claimed identity holds exactly when command_count matches
the list length, as it does for every snapshot produced by export. -/
theorem c3_import_stats_sum (strategy : ImportStrategy) (s : Store)
    (data : ExportData) (now : Nat)
    (hv : data.version.isEmpty = false) (hwf : IdsAssigned s) :
    ∃ s' stats, Importer.import' strategy s data now = .ok (s', stats)
      ∧ stats.imported + stats.skipped + stats.updated = data.commands.length
      ∧ stats.total_commands = data.command_count := by
  obtain ⟨s', stats, h1, h2, h3⟩ :=
    importLoop_counts strategy now data.commands s
      { total_commands := data.command_count, imported := 0, skipped := 0, updated := 0 } hwf
  refine ⟨s', stats, ?_, ?_, ?_⟩
  · unfold Importer.import'
    rw [if_neg (by simp [hv])]
    exact h1
  · simpa using h2
  · simpa using h3

/-- Witness for the amended C3: the UpdateUsage run over the concrete
duplicate snapshot. -/
theorem c3_import_stats_sum_witness :
    data10.version.isEmpty = false ∧ (∀ r ∈ s5.rows, r.id.isSome)
    ∧ ∃ s' stats, Importer.import' .UpdateUsage s5 data10 300 = .ok (s', stats)
      ∧ stats.imported + stats.skipped + stats.updated = data10.commands.length
      ∧ stats.total_commands = data10.command_count :=
  ⟨by decide, by decide,
   c3_import_stats_sum .UpdateUsage s5 data10 300 (by decide)
     (by unfold IdsAssigned; decide)⟩

/-- If no stored row carries the key, the duplicate lookup is negative. -/
theorem find_duplicate_eq_none (s : Store) (c w : String)
    (h : ∀ r ∈ s.rows, keyOf r ≠ (c, w)) :
    Storage.find_duplicate s c w = none := by
  unfold Storage.find_duplicate
  rw [List.find?_eq_none]
  intro r hr hpred
  apply h r hr
  simp only [Bool.and_eq_true, beq_iff_eq] at hpred
  unfold keyOf
  rw [hpred.1, hpred.2]

/-- Importing a list of records none of whose keys are present (and whose
keys are pairwise distinct) with strategy Skip inserts every record in
order, assigning consecutive rowids, and counts them all as imported. -/
theorem importLoop_all_new (now : Nat) (L : List CommandRecord) :
    ∀ (s : Store) (stats : ImportStats),
      (∀ c ∈ L, ∀ r ∈ s.rows, keyOf r ≠ keyOf c) →
      (L.map keyOf).Nodup →
      Importer.importLoop .Skip now L s stats =
        .ok ({ rows := s.rows ++ assignIds s.nextId L, nextId := s.nextId + L.length },
             { stats with imported := stats.imported + L.length }) := by
  induction L with
  | nil =>
    intro s stats _ _
    simp [Importer.importLoop, assignIds]
  | cons cmd rest ih =>
    intro s stats hfresh hnodup
    simp only [List.map_cons, List.nodup_cons] at hnodup
    have hdup : Storage.find_duplicate s cmd.command cmd.working_dir = none :=
      find_duplicate_eq_none s cmd.command cmd.working_dir
        (fun r hr => hfresh cmd (by simp) r hr)
    have hfresh' : ∀ c' ∈ rest, ∀ r ∈ (Storage.insert s cmd).2.rows, keyOf r ≠ keyOf c' := by
      intro c' hc' r hr
      unfold Storage.insert at hr
      simp only [List.mem_append, List.mem_singleton] at hr
      rcases hr with hr | hr
      · exact hfresh c' (List.mem_cons_of_mem _ hc') r hr
      · subst hr
        intro hkey
        apply hnodup.1
        have hk2 : keyOf cmd = keyOf c' := hkey
        rw [hk2]
        exact List.mem_map_of_mem keyOf hc'
    simp only [Importer.importLoop]
    rw [hdup]
    dsimp only
    rw [ih (Storage.insert s cmd).2 { stats with imported := stats.imported + 1 }
      hfresh' hnodup.2]
    simp only [Storage.insert, assignIds, Except.ok.injEq, Prod.mk.injEq, Store.mk.injEq,
      ImportStats.mk.injEq, List.length_cons, List.append_assoc, List.singleton_append,
      List.cons_append, List.nil_append, and_true, true_and]
    and_intros <;> omega

/-- Every record produced by rowid assignment keeps its timestamp. -/
theorem assignIds_ts (n : Int) (L : List CommandRecord) (b : CommandRecord)
    (hb : b ∈ assignIds n L) : ∃ a ∈ L, b.timestamp = a.timestamp := by
  induction L generalizing n with
  | nil => simp [assignIds] at hb
  | cons c cs ih =>
    simp only [assignIds, List.mem_cons] at hb
    rcases hb with hb | hb
    · exact ⟨c, by simp, by rw [hb]⟩
    · obtain ⟨a, ha, hts⟩ := ih (n + 1) hb
      exact ⟨a, by simp [ha], hts⟩

/-- Rowid assignment preserves sortedness by timestamp. -/
theorem sorted_assignIds (L : List CommandRecord) :
    ∀ n : Int, L.Sorted tsAsc → (assignIds n L).Sorted tsAsc := by
  induction L with
  | nil => intro n _; simp [assignIds]
  | cons c cs ih =>
    intro n h
    rw [List.sorted_cons] at h
    simp only [assignIds]
    rw [List.sorted_cons]
    refine ⟨?_, ih (n + 1) h.2⟩
    intro b hb
    obtain ⟨a, ha, hts⟩ := assignIds_ts (n + 1) cs b hb
    show c.timestamp ≤ b.timestamp
    rw [hts]
    exact h.1 a ha

/-- Rowid assignment changes nothing but the surrogate id. -/
theorem forall2_sameData_assignIds (L : List CommandRecord) :
    ∀ n : Int, List.Forall₂ sameData (assignIds n L) L := by
  induction L with
  | nil => intro n; simp [assignIds]
  | cons c cs ih =>
    intro n
    simp only [assignIds]
    exact List.Forall₂.cons
      (by unfold sameData; exact ⟨rfl, rfl, rfl, rfl, rfl, rfl, rfl, rfl⟩)
      (ih (n + 1))

/-- C9: exporting a store whose rows satisfy the key-uniqueness invariant
and importing the snapshot into an empty store with strategy Skip imports
every record (imported = N, skipped = 0, updated = 0, and the stats total
equals N), and the target store's full dump agrees with the source's dump
record for record in every field except the surrogate id. -/
theorem c9_roundtrip (src : Store) (now1 now2 : Nat)
    (hkeys : (src.rows.map keyOf).Nodup) :
    ∃ tgt stats,
      Importer.import' .Skip Store.empty (Exporter.export src now1) now2 = .ok (tgt, stats)
      ∧ stats.imported = src.rows.length ∧ stats.skipped = 0 ∧ stats.updated = 0
      ∧ stats.total_commands = src.rows.length
      ∧ List.Forall₂ sameData (Storage.get_all tgt) (Storage.get_all src) := by
  have hperm : (Storage.get_all src).Perm src.rows := List.perm_insertionSort tsAsc src.rows
  have hlen : (Storage.get_all src).length = src.rows.length := hperm.length_eq
  have hnodupL : ((Storage.get_all src).map keyOf).Nodup :=
    ((hperm.map keyOf).nodup_iff).mpr hkeys
  have hsortedL : (Storage.get_all src).Sorted tsAsc :=
    List.sorted_insertionSort tsAsc src.rows
  have hrun := importLoop_all_new now2 (Storage.get_all src) Store.empty
    { total_commands := (Storage.get_all src).length, imported := 0, skipped := 0,
      updated := 0 }
    (by intro c hc r hr; simp [Store.empty] at hr) hnodupL
  refine ⟨{ rows := assignIds 1 (Storage.get_all src),
            nextId := 1 + (Storage.get_all src).length },
          { total_commands := (Storage.get_all src).length,
            imported := 0 + (Storage.get_all src).length, skipped := 0, updated := 0 },
          ?_, ?_, rfl, rfl, ?_, ?_⟩
  · have hv : ¬((Exporter.export src now1).version.isEmpty = true) := by
      intro hfalse
      have h10 : ("1.0" : String).isEmpty = true := hfalse
      exact absurd h10 (by decide)
    unfold Importer.import'
    rw [if_neg hv]
    exact hrun
  · show 0 + (Storage.get_all src).length = src.rows.length
    simpa using hlen
  · exact hlen
  · show List.Forall₂ sameData
      (List.insertionSort tsAsc (assignIds 1 (Storage.get_all src))) (Storage.get_all src)
    rw [(sorted_assignIds (Storage.get_all src) 1 hsortedL).insertionSort_eq]
    exact forall2_sameData_assignIds (Storage.get_all src) 1

/-- Witness for C9 at a concrete two-record source store. -/
theorem c9_roundtrip_witness :
    (sSrc.rows.map keyOf).Nodup
    ∧ ∃ tgt stats,
        Importer.import' .Skip Store.empty (Exporter.export sSrc 7) 8 = .ok (tgt, stats)
        ∧ stats.imported = sSrc.rows.length ∧ stats.skipped = 0 ∧ stats.updated = 0
        ∧ stats.total_commands = sSrc.rows.length
        ∧ List.Forall₂ sameData (Storage.get_all tgt) (Storage.get_all sSrc) :=
  ⟨by decide, c9_roundtrip sSrc 7 8 (by decide)⟩
